import Mathlib

/-!
Formal model of `android_env/android_env.py` (class `AndroidEnv`).

The class is an episode-lifecycle state machine around external collaborators
(a `Coordinator` and a `TaskManager`).  The shallow embedding below represents
one `reset`/`step` call as a pure function from the environment state and the
collaborators' responses for that call to the returned `TimeStep` and the new
state.  The string-keyed telemetry dictionary `_log_dict` is modelled as a
partial map `String → Option ℚ` (Python floats/ints are modelled as exact
rationals).  Dictionaries cached in `_latest_action` / `_latest_observation` /
`_latest_extras` are modelled as `Option`-valued fields, `none` standing for
the initial empty dict `{}`; `.copy()` calls are identities in a functional
model.
-/

namespace AndroidEnvModel

/-- Step types of `dm_env.StepType` as used by `AndroidEnv`. -/
inductive StepType where
  | FIRST
  | MID
  | LAST
  deriving DecidableEq

/-- Modelled from the spec: the fixed enumeration of action-type identifiers
(`android_env.components.action_type.ActionType`), whose module is not among
the sources.  The spec fixes only that it is a static, finite enumeration of
named identifiers, so a concrete three-element enumeration is used; nothing
below depends on the particular names or on there being exactly three. -/
inductive ActionType where
  | TOUCH
  | LIFT
  | REPEAT
  deriving DecidableEq

/-- The `.name` attribute of an enum member. -/
def ActionType.name : ActionType → String
  | .TOUCH => "TOUCH"
  | .LIFT => "LIFT"
  | .REPEAT => "REPEAT"

/-- Iteration order of `for act_type in action_type.ActionType`. -/
def actionTypeList : List ActionType :=
  [ActionType.TOUCH, ActionType.LIFT, ActionType.REPEAT]

/-- The record returned by `reset`/`step`: `dm_env.TimeStep`. -/
structure TimeStep (Obs : Type) where
  step_type : StepType
  reward : ℚ
  discount : ℚ
  observation : Option Obs
  deriving DecidableEq

/-- `dm_env.termination(reward=..., observation=...)`:
a `TimeStep` with step type LAST and discount `0.0`. -/
def termination {Obs : Type} (reward : ℚ) (observation : Option Obs) :
    TimeStep Obs :=
  ⟨StepType.LAST, reward, 0, observation⟩

/-- Python `str.startswith`, on the underlying character lists (kept
kernel-computable). -/
def strStartsWith (s p : String) : Bool :=
  p.data.isPrefixOf s.data

/-- Python dict assignment `d[k] = v` on the partial-map model. -/
def setKey (d : String → Option ℚ) (k : String) (v : ℚ) :
    String → Option ℚ :=
  fun q => if q = k then some v else d q

/-- Python `d[k] += 1`.  The source only ever bumps keys installed by
`__init__`, so the model leaves an absent key absent (the Python code would
raise `KeyError` there, a state that is unreachable from `__init__`). -/
def bumpKey (d : String → Option ℚ) (k : String) :
    String → Option ℚ :=
  fun q => if q = k then (d k).map (fun x => x + 1) else d q

/-- `self._log_prefixes = ['androidenv_total', 'androidenv_episode']`. -/
def logScopes : List String :=
  ["androidenv_total", "androidenv_episode"]

/-- The f-string key for a scope's steps counter, `scope ++ "_steps"`. -/
def stepsKey (scope : String) : String :=
  scope ++ "_steps"

/-- The f-string key for a per-action-type counter. -/
def actKey (scope : String) (t : ActionType) : String :=
  scope ++ "_action_type_" ++ t.name

/-- The f-string key for a derived per-action-type ratio. -/
def ratioKey (scope : String) (t : ActionType) : String :=
  scope ++ "_action_type_ratio_" ++ t.name

/-- The `_log_dict` installed by `AndroidEnv.__init__`: `restart_count`,
`reset_count_step_timeout`, and, for each scope, a steps counter and one
counter per action type, all zero. -/
def initLogDict : String → Option ℚ := fun k =>
  if k = "restart_count" ∨ k = "reset_count_step_timeout" then some 0
  else if logScopes.any (fun p =>
      k == stepsKey p || actionTypeList.any (fun t => k == actKey p t)) then
    some 0
  else none

/-- `AndroidEnv._update_log_dict(act_type)`: for each scope, bump the steps
counter and the counter of the given action type. -/
def update_log_dict (d : String → Option ℚ) (t : ActionType) :
    String → Option ℚ :=
  logScopes.foldl (fun m p => bumpKey (bumpKey m (stepsKey p)) (actKey p t)) d

/-- `AndroidEnv._reset_log_dict()`: every key of the dict that starts with
`androidenv_episode` is set to `0.0`; every other key keeps its value. -/
def reset_log_dict (d : String → Option ℚ) : String → Option ℚ := fun k =>
  if strStartsWith k "androidenv_episode" then (d k).map (fun _ => 0)
  else d k

/-- One iteration of the ratio loop of `AndroidEnv._flush_log_dict` for one
scope: if the scope's steps counter reads `0` the scope is skipped (the
source logs a warning and `continue`s); otherwise one ratio key per action
type is written, reading counts from the dict as mutated so far. -/
def flushAddRatios (m : String → Option ℚ) (p : String) :
    String → Option ℚ :=
  if m (stepsKey p) = some 0 then m
  else
    actionTypeList.foldl
      (fun acc t =>
        setKey acc (ratioKey p t)
          (((acc (actKey p t)).getD 0) / ((acc (stepsKey p)).getD 0)))
      m

/-- `AndroidEnv._flush_log_dict()`: deep-copy the dict (a no-op functionally),
merge in the coordinator's `log_dict()` entries, then add ratio keys scope by
scope. -/
def flush_log_dict (d : String → Option ℚ) (coordLog : List (String × ℚ)) :
    String → Option ℚ :=
  logScopes.foldl flushAddRatios
    (coordLog.foldl (fun m kv => setKey m kv.1 kv.2) d)

/-- An agent action dict: the `action_type` entry (read by `step`) plus the
rest of the dict, abstracted as a payload of type `P`. -/
structure AgentAction (P : Type) where
  action_type : ActionType
  payload : P
  deriving DecidableEq

/-- Collaborator responses consumed by one `reset()` call:
the result of `coordinator.execute_action(action=None)` (possibly `None`)
and of `task_manager.get_current_extras()` (a dict, never `None`). -/
structure ResetResponse (Obs Extras : Type) where
  exec_obs : Option Obs
  extras : Extras
  deriving DecidableEq

/-- Collaborator responses consumed by one `step(action)` call.
`reset_response` holds the responses the nested `reset()` would consume when
`step` silently redirects to it. -/
structure StepResponse (Obs Extras : Type) where
  should_restart : Bool
  check_timeout : Bool
  reset_response : ResetResponse Obs Extras
  exec_obs : Option Obs
  reward : ℚ
  extras : Extras
  episode_ended : Bool
  deriving DecidableEq

/-- The mutable state of an `AndroidEnv` object.  `coordinator_close_calls`
is a ghost counter recording how many times `coordinator.close()` has been
invoked on behalf of this object. -/
structure EnvState (P Obs Extras : Type) where
  is_closed : Bool
  latest_action : Option (AgentAction P)
  latest_observation : Option Obs
  latest_extras : Option Extras
  latest_step_type : StepType
  reset_next_step : Bool
  log_dict : String → Option ℚ
  coordinator_close_calls : ℕ

/-- The state established by `AndroidEnv.__init__`. -/
def initState (P Obs Extras : Type) : EnvState P Obs Extras where
  is_closed := false
  latest_action := none
  latest_observation := none
  latest_extras := none
  latest_step_type := StepType.LAST
  reset_next_step := true
  log_dict := initLogDict
  coordinator_close_calls := 0

/-- `AndroidEnv.reset()`.  The call to `coordinator.reset()` is an effect on
the collaborator only and leaves this object's state unchanged. -/
def reset {P Obs Extras : Type} (s : EnvState P Obs Extras)
    (r : ResetResponse Obs Extras) : TimeStep Obs × EnvState P Obs Extras :=
  let s1 : EnvState P Obs Extras :=
    { s with latest_action := none, log_dict := reset_log_dict s.log_dict }
  let obs1 : Option Obs :=
    match r.exec_obs with
    | some o => some o
    | none => s1.latest_observation
  let s2 : EnvState P Obs Extras :=
    { s1 with
        latest_observation := obs1
        latest_extras := some r.extras
        reset_next_step := false
        latest_step_type := StepType.FIRST }
  (⟨StepType.FIRST, 0, 0, s2.latest_observation⟩, s2)

/-- `AndroidEnv.step(action)`.  The call to `task_manager.increment_steps()`
in the normal branch is an effect on the collaborator only. -/
def step {P Obs Extras : Type} (s : EnvState P Obs Extras)
    (a : AgentAction P) (r : StepResponse Obs Extras) :
    TimeStep Obs × EnvState P Obs Extras :=
  let s0 : EnvState P Obs Extras := { s with latest_action := some a }
  if r.should_restart then
    let s1 : EnvState P Obs Extras :=
      { s0 with
          log_dict := bumpKey s0.log_dict "restart_count"
          reset_next_step := true
          latest_step_type := StepType.LAST }
    (termination 0 s1.latest_observation, s1)
  else if r.check_timeout then
    let s1 : EnvState P Obs Extras :=
      { s0 with
          log_dict := bumpKey s0.log_dict "reset_count_step_timeout"
          reset_next_step := true
          latest_step_type := StepType.LAST }
    (termination 0 s1.latest_observation, s1)
  else if s0.reset_next_step then
    reset s0 r.reset_response
  else
    let s1 : EnvState P Obs Extras :=
      { s0 with log_dict := update_log_dict s0.log_dict a.action_type }
    let obs1 : Option Obs :=
      match r.exec_obs with
      | some o => some o
      | none => s1.latest_observation
    let s2 : EnvState P Obs Extras :=
      { s1 with latest_observation := obs1, latest_extras := some r.extras }
    let s3 : EnvState P Obs Extras :=
      { s2 with
          reset_next_step := r.episode_ended
          latest_step_type :=
            if r.episode_ended then StepType.LAST else StepType.MID }
    (⟨s3.latest_step_type, r.reward,
      if r.episode_ended then 0 else 1, s3.latest_observation⟩, s3)

/-- The `raw_action` property. -/
def raw_action {P Obs Extras : Type} (s : EnvState P Obs Extras) :
    Option (AgentAction P) :=
  s.latest_action

/-- The `raw_observation` property. -/
def raw_observation {P Obs Extras : Type} (s : EnvState P Obs Extras) :
    Option Obs :=
  s.latest_observation

/-- `AndroidEnv.close()`: after `__init__` has run, `hasattr(self,
'_coordinator')` is always true, so every call invokes
`coordinator.close()` and then sets `_is_closed`. -/
def close {P Obs Extras : Type} (s : EnvState P Obs Extras) :
    EnvState P Obs Extras :=
  { s with
      coordinator_close_calls := s.coordinator_close_calls + 1
      is_closed := true }

/-- `AndroidEnv.__del__()`: calls `close()` unless the object is already
closed. -/
def del {P Obs Extras : Type} (s : EnvState P Obs Extras) :
    EnvState P Obs Extras :=
  if s.is_closed then s else close s

/-- One public call on the environment, with the collaborator responses it
consumes. -/
inductive EnvCall (P Obs Extras : Type) where
  | resetCall : ResetResponse Obs Extras → EnvCall P Obs Extras
  | stepCall : AgentAction P → StepResponse Obs Extras → EnvCall P Obs Extras

/-- Dispatch one call. -/
def doCall {P Obs Extras : Type} (s : EnvState P Obs Extras) :
    EnvCall P Obs Extras → TimeStep Obs × EnvState P Obs Extras
  | EnvCall.resetCall rr => reset s rr
  | EnvCall.stepCall a r => step s a r

/-- The sequence of `step_type` values returned along a sequence of calls. -/
def runOutputs {P Obs Extras : Type} (s : EnvState P Obs Extras) :
    List (EnvCall P Obs Extras) → List StepType
  | [] => []
  | c :: cs => (doCall s c).1.step_type :: runOutputs (doCall s c).2 cs

/-- A call at which neither `should_restart()` nor `check_timeout()` reports
true (any `reset`, or a `step` whose infrastructure checks are clear). -/
def benignCall {P Obs Extras : Type} : EnvCall P Obs Extras → Bool
  | EnvCall.resetCall _ => true
  | EnvCall.stepCall _ r => !r.should_restart && !r.check_timeout

/-!
Model of `AndroidEnv.task_extras`.  Cached extras are numpy arrays; the model
keeps, for each array, its dtype tag and its elements (element values as exact
rationals; dm_env's per-element shape check is trivial here because each
element of a cached extras array is validated as a scalar against the entry's
spec).  `numpy.ndarray.astype(dtype)` re-tags the array with the requested
dtype — the numeric conversion of the payload is abstracted away, since
validation observes only the resulting dtype tag and the values' bounds.
-/

/-- Array element dtypes (only their identity matters). -/
inductive Dtype where
  | int32
  | float32
  deriving DecidableEq

/-- One entry of `task_extras_spec()`: a declared dtype plus optional bounds
(`dm_env.specs.BoundedArray`; unbounded entries have no bounds). -/
structure ExtraArraySpec where
  dtype : Dtype
  minimum : Option ℚ
  maximum : Option ℚ
  deriving DecidableEq

/-- A cached numpy array of extras values. -/
structure NDValue where
  dtype : Dtype
  data : List ℚ
  deriving DecidableEq

/-- `ndarray.astype(dtype)`: the result carries the requested dtype. -/
def astype (v : NDValue) (d : Dtype) : NDValue :=
  { dtype := d, data := v.data }

/-- Bounds part of `dm_env` spec validation. -/
def inBounds (sp : ExtraArraySpec) (x : ℚ) : Bool :=
  (match sp.minimum with
   | some m => decide (m ≤ x)
   | none => true) &&
  (match sp.maximum with
   | some m => decide (x ≤ m)
   | none => true)

/-- `spec.validate(extra)` on a scalar element of dtype `d`: the dtype must
equal the declared dtype and the value must satisfy the declared bounds. -/
def specValidate (sp : ExtraArraySpec) (d : Dtype) (x : ℚ) : Bool :=
  decide (d = sp.dtype) && inBounds sp x

/-- How a `task_extras` call can fail: a failed `spec.validate` (the spec's
SchemaViolation) or the `IndexError` of `extra_values[-1]` on an empty
array. -/
inductive ExtrasError where
  | schemaViolation
  | indexError
  deriving DecidableEq

/-- `AndroidEnv.task_extras(latest_only)`: iterate over the entries of
`task_extras_spec()`; for each key present in the cached `_latest_extras`,
cast the cached array to the declared dtype, validate every element, and
return either the last element (`extra_values[-1]`, which raises on an empty
array) or the whole array. -/
def task_extras :
    List (String × ExtraArraySpec) → List (String × NDValue) → Bool →
    Except ExtrasError (List (String × NDValue))
  | [], _, _ => Except.ok []
  | (k, sp) :: rest, latest, latest_only =>
    match latest.lookup k with
    | none => task_extras rest latest latest_only
    | some v =>
      let ev := astype v sp.dtype
      if ev.data.all (fun x => specValidate sp ev.dtype x) then
        if latest_only then
          match ev.data.getLast? with
          | none => Except.error ExtrasError.indexError
          | some x =>
            (task_extras rest latest latest_only).map
              (fun tl => (k, NDValue.mk ev.dtype [x]) :: tl)
        else
          (task_extras rest latest latest_only).map (fun tl => (k, ev) :: tl)
      else Except.error ExtrasError.schemaViolation

/-- The telemetry ledger of a freshly reset environment after the recorded
steps of one episode with action types `L`, flushed with the coordinator log
`coordLog` merged in (`android_logs()` = `_flush_log_dict()`). -/
def episodeFlush (L : List ActionType) (coordLog : List (String × ℚ)) :
    String → Option ℚ :=
  flush_log_dict (L.foldl update_log_dict (reset_log_dict initLogDict)) coordLog

/-!  Concrete instances used to exercise the model on closed inputs
(payload type `Unit`, observations and extras drawn from `ℕ`). -/

/-- A reset-call response: the executor returns observation `0`, the extras
provider returns `0`. -/
def rr0 : ResetResponse ℕ ℕ := ⟨some 0, 0⟩

/-- A touch action with trivial payload. -/
def a0 : AgentAction Unit := ⟨ActionType.TOUCH, ()⟩

/-- A step-call response where `should_restart()` reports true. -/
def rRestart : StepResponse ℕ ℕ :=
  ⟨true, false, rr0, none, 0, 0, false⟩

/-- A step-call response where only `check_timeout()` reports true. -/
def rTimeout : StepResponse ℕ ℕ :=
  ⟨false, true, rr0, none, 0, 0, false⟩

/-- A benign step-call response: no restart, no timeout, the executor returns
no observation, the extras provider returns `9`, the episode does not end. -/
def rBenign : StepResponse ℕ ℕ :=
  ⟨false, false, rr0, none, 0, 9, false⟩

/-- A mid-episode state: not reset-pending, with cached observation `5` and
cached extras `7`. -/
def sMid : EnvState Unit ℕ ℕ :=
  { initState Unit ℕ ℕ with
      reset_next_step := false
      latest_observation := some 5
      latest_extras := some 7 }

/-- A state whose ledger holds a nonzero lifetime counter
(`restart_count = 5`) and a nonzero episode counter
(`androidenv_episode_steps = 3`). -/
def sTel : EnvState Unit ℕ ℕ :=
  { initState Unit ℕ ℕ with
      log_dict :=
        setKey (setKey initLogDict "restart_count" 5)
          "androidenv_episode_steps" 3 }

/-- A bounded int32 task-extras schema entry with bounds `[0, 10]`. -/
def scoreSpec : ExtraArraySpec := ⟨Dtype.int32, some 0, some 10⟩

/-!  Theorems. -/

/-- C5, counterexample: the claim says the coordinator's `close()` is called
exactly once no matter how many times `close()` is invoked, but `close()` has
no already-closed guard — two explicit `close()` calls invoke the
coordinator's `close()` twice. -/
theorem c5_close_not_idempotent :
    (close (close (initState Unit ℕ ℕ))).coordinator_close_calls = 2 ∧
    ¬ (close (close (initState Unit ℕ ℕ))).coordinator_close_calls = 1 :=
  ⟨rfl, by decide⟩

/-- C5, amended: every explicit `close()` call invokes the coordinator's
`close()` once more (so n explicit calls invoke it n times); only the
implicit teardown is guarded — `__del__` invokes `close()` only when the
environment is not yet closed, so teardown after an explicit `close()` does
not release again, and teardown of a never-closed environment releases
exactly once. -/
theorem close_per_call_del_guarded {P Obs Extras : Type}
    (s : EnvState P Obs Extras) :
    (close s).coordinator_close_calls = s.coordinator_close_calls + 1 ∧
    (close s).is_closed = true ∧
    del (close s) = close s ∧
    (s.is_closed = false → del s = close s) := by
  refine ⟨rfl, rfl, ?_, ?_⟩
  · simp [del, close]
  · intro h
    simp [del, h]

/-- C5, witness for the amended theorem: the freshly constructed environment
is not closed, and its implicit teardown performs a `close()`. -/
theorem close_per_call_del_guarded_witness :
    (initState Unit ℕ ℕ).is_closed = false ∧
    del (initState Unit ℕ ℕ) = close (initState Unit ℕ ℕ) :=
  ⟨rfl, (close_per_call_del_guarded (initState Unit ℕ ℕ)).2.2.2 rfl⟩

/-- C9: every `step(action)` call overwrites the cached latest action with
the supplied action before the termination checks run — after a restart- or
timeout-terminated step, `raw_action` equals the supplied action even though
it was never executed or counted; after a silent reset-pending redirect,
`raw_action` is the empty mapping because `reset()` clears it; after a normal
step it equals the supplied action. -/
theorem step_overwrites_raw_action {P Obs Extras : Type}
    (s : EnvState P Obs Extras) (a : AgentAction P)
    (r : StepResponse Obs Extras) :
    (r.should_restart = true → raw_action (step s a r).2 = some a) ∧
    (r.should_restart = false → r.check_timeout = true →
      raw_action (step s a r).2 = some a) ∧
    (r.should_restart = false → r.check_timeout = false →
      s.reset_next_step = true → raw_action (step s a r).2 = none) ∧
    (r.should_restart = false → r.check_timeout = false →
      s.reset_next_step = false → raw_action (step s a r).2 = some a) := by
  refine ⟨?_, ?_, ?_, ?_⟩ <;> intros <;> simp_all [step, reset, raw_action]

/-- C9, witness: the four branches of `step_overwrites_raw_action` at
concrete inputs. -/
theorem step_overwrites_raw_action_witness :
    raw_action (step (initState Unit ℕ ℕ) a0 rRestart).2 = some a0 ∧
    raw_action (step sMid a0 rTimeout).2 = some a0 ∧
    raw_action (step (initState Unit ℕ ℕ) a0 rBenign).2 = none ∧
    raw_action (step sMid a0 rBenign).2 = some a0 :=
  ⟨(step_overwrites_raw_action _ a0 rRestart).1 rfl,
   (step_overwrites_raw_action _ a0 rTimeout).2.1 rfl rfl,
   (step_overwrites_raw_action _ a0 rBenign).2.2.1 rfl rfl rfl,
   (step_overwrites_raw_action _ a0 rBenign).2.2.2 rfl rfl rfl⟩

/-- C2: calling `step` while the reset-pending flag is set, when neither
`should_restart()` nor `check_timeout()` reports true, returns exactly the
TimeStep of a direct `reset()` call and leaves the object in exactly the
state a direct `reset()` would — in particular the supplied action is never
recorded in telemetry (the resulting ledger is the reset ledger, independent
of the action). -/
theorem step_reset_pending_is_reset {P Obs Extras : Type}
    (s : EnvState P Obs Extras) (a : AgentAction P)
    (r : StepResponse Obs Extras)
    (h1 : r.should_restart = false) (h2 : r.check_timeout = false)
    (h3 : s.reset_next_step = true) :
    step s a r = reset s r.reset_response := by
  simp [step, h1, h2, h3]
  rfl

/-- C2, witness: a freshly constructed environment is reset-pending, and a
benign `step` on it equals a direct `reset`. -/
theorem step_reset_pending_is_reset_witness :
    rBenign.should_restart = false ∧
    rBenign.check_timeout = false ∧
    (initState Unit ℕ ℕ).reset_next_step = true ∧
    step (initState Unit ℕ ℕ) a0 rBenign
      = reset (initState Unit ℕ ℕ) rBenign.reset_response :=
  ⟨rfl, rfl, rfl, step_reset_pending_is_reset _ _ _ rfl rfl rfl⟩

/-- C3: when `should_restart()` reports true at a `step` call, the returned
TimeStep has reward `0.0`, discount `0.0`, step type LAST, and carries the
previously cached observation unchanged; the cached observation and extras
persist (no new observation is computed), and of the telemetry counters only
`restart_count` is incremented — every other key is untouched. -/
theorem restart_step_short_circuit {P Obs Extras : Type}
    (s : EnvState P Obs Extras) (a : AgentAction P)
    (r : StepResponse Obs Extras) (h : r.should_restart = true) :
    (step s a r).1.reward = 0 ∧
    (step s a r).1.discount = 0 ∧
    (step s a r).1.step_type = StepType.LAST ∧
    (step s a r).1.observation = s.latest_observation ∧
    (step s a r).2.latest_observation = s.latest_observation ∧
    (step s a r).2.latest_extras = s.latest_extras ∧
    (step s a r).2.log_dict "restart_count"
      = (s.log_dict "restart_count").map (fun x => x + 1) ∧
    (∀ k, k ≠ "restart_count" → (step s a r).2.log_dict k = s.log_dict k) := by
  refine ⟨?_, ?_, ?_, ?_, ?_, ?_, ?_, ?_⟩
  · simp [step, h, termination]
  · simp [step, h, termination]
  · simp [step, h, termination]
  · simp [step, h, termination]
  · simp [step, h]
  · simp [step, h]
  · simp [step, h, bumpKey]
  · intro k hk
    simp [step, h, bumpKey, hk]

/-- C3, witness: a restart-terminated step from a mid-episode state keeps the
cached observation, bumps `restart_count` from 0 to 1 and leaves the step
counter at 0. -/
theorem restart_step_short_circuit_witness :
    rRestart.should_restart = true ∧
    (step sMid a0 rRestart).1.step_type = StepType.LAST ∧
    (step sMid a0 rRestart).1.observation = some 5 ∧
    (step sMid a0 rRestart).2.log_dict "restart_count" = some 1 ∧
    (step sMid a0 rRestart).2.log_dict "androidenv_total_steps" = some 0 := by
  obtain ⟨_, _, h3, h4, _, _, h7, h8⟩ :=
    restart_step_short_circuit sMid a0 rRestart rfl
  refine ⟨rfl, h3, ?_, ?_, ?_⟩
  · rw [h4]
    rfl
  · rw [h7]
    simp [sMid, initState, initLogDict]
  · rw [h8 "androidenv_total_steps" (by decide)]
    rfl

/-- C4, counterexample: the claim says the cached task-extras, like the
cached observation, persist when the executor returns a null result; but on
a normal step whose executor returns `None`, the cached observation persists
while the cached extras are still replaced with the provider's fresh value. -/
theorem c4_extras_replaced_despite_null_result :
    rBenign.exec_obs = none ∧
    sMid.latest_extras = some 7 ∧
    (step sMid a0 rBenign).2.latest_observation = some 5 ∧
    (step sMid a0 rBenign).2.latest_extras = some 9 ∧
    ¬ (step sMid a0 rBenign).2.latest_extras = sMid.latest_extras :=
  ⟨rfl, rfl, rfl, rfl, by decide⟩

/-- C4, amended: during both `reset` and a normally executed `step`, the
cached observation is replaced only when the executor returns a non-null
result and otherwise persists unchanged, while the cached task-extras are
unconditionally replaced with the extras provider's (always non-null)
result. -/
theorem latest_cache_update_policy {P Obs Extras : Type}
    (s : EnvState P Obs Extras) (a : AgentAction P)
    (r : StepResponse Obs Extras) (rr : ResetResponse Obs Extras) :
    ((reset s rr).2.latest_extras = some rr.extras) ∧
    (rr.exec_obs = none →
      (reset s rr).2.latest_observation = s.latest_observation) ∧
    (∀ o, rr.exec_obs = some o → (reset s rr).2.latest_observation = some o) ∧
    (r.should_restart = false → r.check_timeout = false →
      s.reset_next_step = false →
      ((step s a r).2.latest_extras = some r.extras ∧
       (r.exec_obs = none →
         (step s a r).2.latest_observation = s.latest_observation) ∧
       (∀ o, r.exec_obs = some o →
         (step s a r).2.latest_observation = some o))) := by
  refine ⟨rfl, ?_, ?_, ?_⟩
  · intro h
    simp [reset, h]
  · intro o h
    simp [reset, h]
  · intro h1 h2 h3
    refine ⟨?_, ?_, ?_⟩
    · simp [step, h1, h2, h3]
    · intro h
      simp [step, h1, h2, h3, h]
    · intro o h
      simp [step, h1, h2, h3, h]

/-- C4, witness for the amended theorem: on concrete inputs, a reset caches
the provider's extras, and a normal step with a null executor result keeps
the cached observation while refreshing the extras. -/
theorem latest_cache_update_policy_witness :
    (reset sMid rr0).2.latest_extras = some rr0.extras ∧
    rBenign.exec_obs = none ∧
    (step sMid a0 rBenign).2.latest_observation = sMid.latest_observation ∧
    (step sMid a0 rBenign).2.latest_extras = some rBenign.extras := by
  obtain ⟨hres, -, -, hstep⟩ :=
    latest_cache_update_policy sMid a0 rBenign rr0
  obtain ⟨he, hobs, -⟩ := hstep rfl rfl rfl
  exact ⟨hres, rfl, hobs rfl, he⟩

/-- C10: when the cached task-extras entry for a schema key is an empty
array, `task_extras(latest_only=True)` reaches the `extra_values[-1]`
indexing of an empty sequence and fails with an out-of-bounds access, not a
SchemaViolation. -/
theorem task_extras_empty_array_index_error (k : String)
    (sp : ExtraArraySpec) (d : Dtype) :
    task_extras [(k, sp)] [(k, NDValue.mk d [])] true
      = Except.error ExtrasError.indexError := by
  simp [task_extras, astype, List.lookup]

/-- C6, counterexample: the claim says a cached value of the wrong dtype is
rejected with a SchemaViolation rather than converted; but `task_extras`
casts the cached array to the declared dtype via `astype` before validating,
so a float32 value under an int32 schema is silently coerced and returned. -/
theorem c6_wrong_dtype_silently_coerced :
    ¬ (Dtype.float32 = scoreSpec.dtype) ∧
    task_extras [("score", scoreSpec)]
        [("score", NDValue.mk Dtype.float32 [3])] true
      = Except.ok [("score", NDValue.mk Dtype.int32 [3])] :=
  ⟨by decide, by rfl⟩

/-- C6, amended: `task_extras` validates every returned value against the
declared schema and raises a SchemaViolation when a value's declared bounds
are not met; dtype mismatches, however, are not rejected — the cached value
is silently cast to the schema dtype via `astype` before validation, so the
returned value always carries the schema dtype regardless of the cached
dtype. -/
theorem task_extras_validation (k : String) (sp : ExtraArraySpec)
    (d : Dtype) (x : ℚ) (lo : Bool) :
    (inBounds sp x = false →
      task_extras [(k, sp)] [(k, NDValue.mk d [x])] lo
        = Except.error ExtrasError.schemaViolation) ∧
    (inBounds sp x = true →
      task_extras [(k, sp)] [(k, NDValue.mk d [x])] lo
        = Except.ok [(k, NDValue.mk sp.dtype [x])]) := by
  constructor <;> intro h <;>
    cases lo <;>
      simp [task_extras, astype, specValidate, h, List.lookup, Except.map]

/-- C6, witness for the amended theorem: an out-of-bounds int32 value raises
a SchemaViolation, and an in-bounds float32 value under the int32 schema is
returned coerced to int32. -/
theorem task_extras_validation_witness :
    inBounds scoreSpec 99 = false ∧
    task_extras [("score", scoreSpec)]
        [("score", NDValue.mk Dtype.int32 [99])] true
      = Except.error ExtrasError.schemaViolation ∧
    inBounds scoreSpec 3 = true ∧
    task_extras [("score", scoreSpec)]
        [("score", NDValue.mk Dtype.float32 [3])] false
      = Except.ok [("score", NDValue.mk scoreSpec.dtype [3])] :=
  ⟨by decide,
   (task_extras_validation "score" scoreSpec Dtype.int32 99 true).1 (by decide),
   by decide,
   (task_extras_validation "score" scoreSpec Dtype.float32 3 false).2
     (by decide)⟩

/-- C1, counterexample: with arbitrary collaborator responses the claimed
temporal property fails — after a reset, two consecutive steps at which
`should_restart()` reports true both return LAST, so a LAST is not followed
by FIRST and two LASTs occur between consecutive FIRST boundaries. -/
theorem c1_consecutive_last_outputs :
    runOutputs (initState Unit ℕ ℕ)
        [EnvCall.resetCall rr0, EnvCall.stepCall a0 rRestart,
         EnvCall.stepCall a0 rRestart]
      = [StepType.FIRST, StepType.LAST, StepType.LAST] ∧
    ¬ [StepType.FIRST, StepType.LAST, StepType.LAST].get? 2
        = some StepType.FIRST :=
  ⟨rfl, by decide⟩

/-- Any call that returns a LAST TimeStep leaves the reset-pending flag
set. -/
theorem last_output_sets_reset_pending {P Obs Extras : Type}
    (s : EnvState P Obs Extras) (c : EnvCall P Obs Extras)
    (h : (doCall s c).1.step_type = StepType.LAST) :
    (doCall s c).2.reset_next_step = true := by
  cases c with
  | resetCall rr => simp [doCall, reset] at h
  | stepCall a r =>
    cases hr : r.should_restart with
    | true => simp [doCall, step, hr, termination]
    | false =>
      cases ht : r.check_timeout with
      | true => simp [doCall, step, hr, ht, termination]
      | false =>
        cases hp : s.reset_next_step with
        | true => simp [doCall, step, hr, ht, hp, reset] at h
        | false =>
          cases he : r.episode_ended with
          | true => simp [doCall, step, hr, ht, hp, he]
          | false => simp [doCall, step, hr, ht, hp, he] at h

/-- From a reset-pending state, any reset, and any step at which neither
`should_restart()` nor `check_timeout()` reports true, returns FIRST. -/
theorem reset_pending_benign_first {P Obs Extras : Type}
    (s : EnvState P Obs Extras) (c : EnvCall P Obs Extras)
    (hp : s.reset_next_step = true) (hb : benignCall c = true) :
    (doCall s c).1.step_type = StepType.FIRST := by
  cases c with
  | resetCall rr => simp [doCall, reset]
  | stepCall a r =>
    simp only [benignCall, Bool.and_eq_true, Bool.not_eq_true'] at hb
    simp [doCall, step, hb.1, hb.2, hp, reset]

/-- C1, amended: whenever a call returns step type LAST, the very next call
returns FIRST provided it is a `reset`, or a `step` at which neither
`should_restart()` nor `check_timeout()` reports true; a step at which
restart or timeout fires returns LAST again, so under arbitrary collaborator
responses consecutive LASTs (and several LASTs between two FIRST boundaries)
are possible. -/
theorem last_then_benign_call_first {P Obs Extras : Type}
    (s : EnvState P Obs Extras) (c c' : EnvCall P Obs Extras)
    (h : (doCall s c).1.step_type = StepType.LAST)
    (hb : benignCall c' = true) :
    (doCall (doCall s c).2 c').1.step_type = StepType.FIRST :=
  reset_pending_benign_first _ _ (last_output_sets_reset_pending s c h) hb

/-- C1, witness for the amended theorem: a restart-terminated step returns
LAST, and the following reset call returns FIRST. -/
theorem last_then_benign_call_first_witness :
    (doCall (initState Unit ℕ ℕ)
        (EnvCall.stepCall a0 rRestart)).1.step_type = StepType.LAST ∧
    benignCall (EnvCall.resetCall rr0 : EnvCall Unit ℕ ℕ) = true ∧
    (doCall (doCall (initState Unit ℕ ℕ)
        (EnvCall.stepCall a0 rRestart)).2
        (EnvCall.resetCall rr0)).1.step_type = StepType.FIRST :=
  ⟨rfl, rfl, last_then_benign_call_first _ _ _ rfl rfl⟩

/-- C7: the per-episode counter reset performed at every `reset`
(`_reset_log_dict`, the spec's `begin_episode`) zeroes exactly the counters
whose name is scoped to `androidenv_episode`; every other counter — in
particular the lifetime restart and step-timeout counters and the
`androidenv_total` scope — holds exactly the value it held before. -/
theorem reset_zeroes_episode_scope {P Obs Extras : Type}
    (s : EnvState P Obs Extras) (rr : ResetResponse Obs Extras)
    (k : String) :
    (strStartsWith k "androidenv_episode" = true →
      (reset s rr).2.log_dict k = (s.log_dict k).map (fun _ => 0)) ∧
    (strStartsWith k "androidenv_episode" = false →
      (reset s rr).2.log_dict k = s.log_dict k) := by
  constructor <;> intro h <;> simp [reset, reset_log_dict, h]

/-- C7, witness: from a ledger with `restart_count = 5` and
`androidenv_episode_steps = 3`, a reset zeroes the episode steps counter and
keeps the restart counter at 5. -/
theorem reset_zeroes_episode_scope_witness :
    strStartsWith "androidenv_episode_steps" "androidenv_episode" = true ∧
    (reset sTel rr0).2.log_dict "androidenv_episode_steps" = some 0 ∧
    strStartsWith "restart_count" "androidenv_episode" = false ∧
    (reset sTel rr0).2.log_dict "restart_count" = some 5 := by
  refine ⟨by decide, ?_, by decide, ?_⟩
  · rw [(reset_zeroes_episode_scope sTel rr0 "androidenv_episode_steps").1
      (by decide)]
    decide
  · rw [(reset_zeroes_episode_scope sTel rr0 "restart_count").2 (by decide)]
    decide

/-!  Ledger bookkeeping lemmas for the flush claim. -/

/-- One recorded step bumps the episode steps counter. -/
theorem upd_ep_steps (d : String → Option ℚ) (t : ActionType) :
    update_log_dict d t (stepsKey "androidenv_episode")
      = (d (stepsKey "androidenv_episode")).map (fun x => x + 1) := by
  cases t <;>
    simp [update_log_dict, logScopes, stepsKey, actKey, ActionType.name,
      bumpKey]

/-- One recorded step bumps the lifetime steps counter. -/
theorem upd_tot_steps (d : String → Option ℚ) (t : ActionType) :
    update_log_dict d t (stepsKey "androidenv_total")
      = (d (stepsKey "androidenv_total")).map (fun x => x + 1) := by
  cases t <;>
    simp [update_log_dict, logScopes, stepsKey, actKey, ActionType.name,
      bumpKey]

/-- One recorded step of type `t'` bumps the episode counter of type `t`
exactly when `t' = t`. -/
theorem upd_ep_act (d : String → Option ℚ) (t' t : ActionType) :
    update_log_dict d t' (actKey "androidenv_episode" t)
      = if t' = t then (d (actKey "androidenv_episode" t)).map (fun x => x + 1)
        else d (actKey "androidenv_episode" t) := by
  cases t' <;> cases t <;>
    simp [update_log_dict, logScopes, stepsKey, actKey, ActionType.name,
      bumpKey]

/-- A recorded step touches no key besides the four step/count keys. -/
theorem upd_preserve (d : String → Option ℚ) (t : ActionType) (k : String)
    (h1 : k ≠ stepsKey "androidenv_total")
    (h2 : k ≠ stepsKey "androidenv_episode")
    (h3 : ∀ u, k ≠ actKey "androidenv_total" u)
    (h4 : ∀ u, k ≠ actKey "androidenv_episode" u) :
    update_log_dict d t k = d k := by
  cases t <;>
    simp [update_log_dict, logScopes, bumpKey, h1, h2, h3 ActionType.TOUCH,
      h3 ActionType.LIFT, h3 ActionType.REPEAT, h4 ActionType.TOUCH,
      h4 ActionType.LIFT, h4 ActionType.REPEAT]

/-- After `N` recorded steps the episode steps counter has grown by `N`. -/
theorem foldl_upd_ep_steps (L : List ActionType) :
    ∀ d : String → Option ℚ,
      (L.foldl update_log_dict d) (stepsKey "androidenv_episode")
        = (d (stepsKey "androidenv_episode")).map
            (fun x => x + (L.length : ℚ)) := by
  induction L with
  | nil =>
    intro d
    cases h : d (stepsKey "androidenv_episode") <;> simp [h]
  | cons t L ih =>
    intro d
    rw [List.foldl_cons, ih, upd_ep_steps]
    cases h : d (stepsKey "androidenv_episode") <;> simp [h]
    ring

/-- After `N` recorded steps the lifetime steps counter has grown by `N`. -/
theorem foldl_upd_tot_steps (L : List ActionType) :
    ∀ d : String → Option ℚ,
      (L.foldl update_log_dict d) (stepsKey "androidenv_total")
        = (d (stepsKey "androidenv_total")).map
            (fun x => x + (L.length : ℚ)) := by
  induction L with
  | nil =>
    intro d
    cases h : d (stepsKey "androidenv_total") <;> simp [h]
  | cons t L ih =>
    intro d
    rw [List.foldl_cons, ih, upd_tot_steps]
    cases h : d (stepsKey "androidenv_total") <;> simp [h]
    ring

/-- After the recorded steps `L`, the episode counter of action type `t` has
grown by the number of occurrences of `t` in `L`. -/
theorem foldl_upd_ep_act (L : List ActionType) (t : ActionType) :
    ∀ d : String → Option ℚ,
      (L.foldl update_log_dict d) (actKey "androidenv_episode" t)
        = (d (actKey "androidenv_episode" t)).map
            (fun x => x + (L.count t : ℚ)) := by
  induction L with
  | nil =>
    intro d
    cases h : d (actKey "androidenv_episode" t) <;> simp [h]
  | cons t' L ih =>
    intro d
    rw [List.foldl_cons, ih, upd_ep_act]
    by_cases he : t' = t
    · subst he
      cases h : d (actKey "androidenv_episode" t') <;>
        simp [h, List.count_cons]
      ring
    · have hbe : (t == t') = false := by
        simp [he]
        exact fun hc => absurd hc.symm he
      cases h : d (actKey "androidenv_episode" t) <;>
        simp [h, he, List.count_cons, hbe]

/-- Recorded steps touch no key besides the step/count keys. -/
theorem foldl_upd_preserve (L : List ActionType) (k : String)
    (h1 : k ≠ stepsKey "androidenv_total")
    (h2 : k ≠ stepsKey "androidenv_episode")
    (h3 : ∀ u, k ≠ actKey "androidenv_total" u)
    (h4 : ∀ u, k ≠ actKey "androidenv_episode" u) :
    ∀ d : String → Option ℚ, (L.foldl update_log_dict d) k = d k := by
  induction L with
  | nil => intro d; rfl
  | cons t L ih =>
    intro d
    rw [List.foldl_cons, ih, upd_preserve d t k h1 h2 h3 h4]

/-- Merging a coordinator log whose keys lie outside the `androidenv`
namespace leaves every `androidenv`-scoped key unchanged. -/
theorem merge_preserve (k : String)
    (hk : strStartsWith k "androidenv" = true) :
    ∀ coordLog : List (String × ℚ),
      (∀ p ∈ coordLog, strStartsWith p.1 "androidenv" = false) →
      ∀ d : String → Option ℚ,
        (coordLog.foldl (fun m kv => setKey m kv.1 kv.2) d) k = d k := by
  intro coordLog
  induction coordLog with
  | nil => intro _ d; rfl
  | cons kv rest ih =>
    intro hd d
    rw [List.foldl_cons, ih (fun p hp => hd p (List.mem_cons_of_mem _ hp))]
    have hne : k ≠ kv.1 := by
      intro he
      have := hd kv (List.mem_cons_self _ _)
      rw [← he, hk] at this
      exact Bool.noConfusion this
    simp [setKey, hne]

/-- The ratio loop of one scope writes only that scope's ratio keys. -/
theorem flushAddRatios_preserve (m : String → Option ℚ) (p : String)
    (k : String) (h : ∀ t, k ≠ ratioKey p t) :
    flushAddRatios m p k = m k := by
  by_cases hs : m (stepsKey p) = some 0
  · simp [flushAddRatios, hs]
  · simp [flushAddRatios, hs, actionTypeList, setKey, h ActionType.TOUCH,
      h ActionType.LIFT, h ActionType.REPEAT]

/-- When the episode steps counter is nonzero, the episode ratio loop writes
count divided by steps under each episode ratio key. -/
theorem flushAddRatios_ep_ratio (m : String → Option ℚ)
    (hne : ¬ m (stepsKey "androidenv_episode") = some 0) (t : ActionType) :
    flushAddRatios m "androidenv_episode" (ratioKey "androidenv_episode" t)
      = some (((m (actKey "androidenv_episode" t)).getD 0)
          / ((m (stepsKey "androidenv_episode")).getD 0)) := by
  unfold flushAddRatios
  rw [if_neg hne]
  cases t <;>
    simp [actionTypeList, List.foldl, setKey, stepsKey, actKey, ratioKey,
      ActionType.name]

/-- The per-type occurrence counts of an action list partition its length. -/
theorem count_sum_nat (L : List ActionType) :
    (actionTypeList.map (fun t => L.count t)).sum = L.length := by
  induction L with
  | nil => rfl
  | cons a L ih =>
    cases a <;> simp [actionTypeList, List.count_cons] at ih ⊢ <;> omega

/-- Rational-cast form of `count_sum_nat`. -/
theorem count_sum_rat (L : List ActionType) :
    (actionTypeList.map (fun t => ((L.count t : ℕ) : ℚ))).sum
      = (L.length : ℚ) := by
  have h := count_sum_nat L
  simp only [actionTypeList, List.map_cons, List.map_nil, List.sum_cons,
    List.sum_nil] at h ⊢
  exact_mod_cast h

/-- Pointwise evaluation of the flushed ledger of one fresh episode: the
episode steps counter reads the number of recorded steps; the episode ratio
keys are absent when no step was recorded, and read count divided by steps
otherwise. -/
theorem episodeFlush_eval (L : List ActionType)
    (coordLog : List (String × ℚ))
    (hd : ∀ p ∈ coordLog, strStartsWith p.1 "androidenv" = false) :
    episodeFlush L coordLog (stepsKey "androidenv_episode")
        = some ((L.length : ℚ)) ∧
    (L = [] → ∀ t, episodeFlush L coordLog (ratioKey "androidenv_episode" t)
        = none) ∧
    (L ≠ [] → ∀ t, episodeFlush L coordLog (ratioKey "androidenv_episode" t)
        = some ((L.count t : ℚ) / (L.length : ℚ))) := by
  set dL : String → Option ℚ :=
    L.foldl update_log_dict (reset_log_dict initLogDict) with hdL
  set m : String → Option ℚ :=
    coordLog.foldl (fun acc kv => setKey acc kv.1 kv.2) dL with hm
  set m1 : String → Option ℚ := flushAddRatios m "androidenv_total" with hm1
  have hbase_epS :
      reset_log_dict initLogDict (stepsKey "androidenv_episode") = some 0 :=
    by decide
  have hbase_epA : ∀ u,
      reset_log_dict initLogDict (actKey "androidenv_episode" u) = some 0 :=
    by intro u; cases u <;> decide
  have hdL_epS : dL (stepsKey "androidenv_episode")
      = some ((L.length : ℚ)) := by
    rw [hdL, foldl_upd_ep_steps, hbase_epS]
    simp
  have hdL_epA : ∀ u, dL (actKey "androidenv_episode" u)
      = some ((L.count u : ℚ)) := by
    intro u
    rw [hdL, foldl_upd_ep_act, hbase_epA u]
    simp
  have hdL_epR : ∀ u, dL (ratioKey "androidenv_episode" u) = none := by
    intro u
    have h1 : ratioKey "androidenv_episode" u ≠ stepsKey "androidenv_total" :=
      by cases u <;> decide
    have h2 : ratioKey "androidenv_episode" u
        ≠ stepsKey "androidenv_episode" := by cases u <;> decide
    have h3 : ∀ v, ratioKey "androidenv_episode" u
        ≠ actKey "androidenv_total" v := by
      intro v; cases u <;> cases v <;> decide
    have h4 : ∀ v, ratioKey "androidenv_episode" u
        ≠ actKey "androidenv_episode" v := by
      intro v; cases u <;> cases v <;> decide
    rw [hdL, foldl_upd_preserve L _ h1 h2 h3 h4]
    cases u <;> decide
  have hm_epS : m (stepsKey "androidenv_episode")
      = some ((L.length : ℚ)) := by
    rw [hm, merge_preserve _ (by decide) coordLog hd]
    exact hdL_epS
  have hm_epA : ∀ u, m (actKey "androidenv_episode" u)
      = some ((L.count u : ℚ)) := by
    intro u
    rw [hm, merge_preserve _ (by cases u <;> decide) coordLog hd]
    exact hdL_epA u
  have hm_epR : ∀ u, m (ratioKey "androidenv_episode" u) = none := by
    intro u
    rw [hm, merge_preserve _ (by cases u <;> decide) coordLog hd]
    exact hdL_epR u
  have hm1_epS : m1 (stepsKey "androidenv_episode")
      = some ((L.length : ℚ)) := by
    rw [hm1, flushAddRatios_preserve m _ _ (by intro v; cases v <;> decide)]
    exact hm_epS
  have hm1_epA : ∀ u, m1 (actKey "androidenv_episode" u)
      = some ((L.count u : ℚ)) := by
    intro u
    rw [hm1, flushAddRatios_preserve m _ _
      (by intro v; cases u <;> cases v <;> decide)]
    exact hm_epA u
  have hm1_epR : ∀ u, m1 (ratioKey "androidenv_episode" u) = none := by
    intro u
    rw [hm1, flushAddRatios_preserve m _ _
      (by intro v; cases u <;> cases v <;> decide)]
    exact hm_epR u
  have hflush : ∀ k, episodeFlush L coordLog k
      = flushAddRatios m1 "androidenv_episode" k := by
    intro k
    rfl
  refine ⟨?_, ?_, ?_⟩
  · rw [hflush,
      flushAddRatios_preserve m1 _ _ (by intro v; cases v <;> decide)]
    exact hm1_epS
  · intro hL t
    have hz : m1 (stepsKey "androidenv_episode") = some 0 := by
      rw [hm1_epS, hL]
      rfl
    rw [hflush]
    unfold flushAddRatios
    rw [if_pos hz]
    exact hm1_epR t
  · intro hL t
    have hNne : (L.length : ℚ) ≠ 0 := by
      have : L.length ≠ 0 := fun h => hL (List.length_eq_zero.mp h)
      exact_mod_cast this
    have hne : ¬ m1 (stepsKey "androidenv_episode") = some 0 := by
      rw [hm1_epS]
      simp only [Option.some.injEq]
      exact hNne
    rw [hflush, flushAddRatios_ep_ratio m1 hne t, hm1_epA t, hm1_epS]
    simp

/-- C8: after a freshly begun episode with `N` recorded steps of action
types `L` (and a coordinator log whose merged keys do not collide with the
ledger's `androidenv` namespace), the flushed ledger reports an episode step
count of `N`; when `N > 0`, each episode action-type ratio equals the number
of occurrences of that type in `L` divided by `N` and the ratios over all
action types sum to exactly `1`; when the episode step count is `0`, ratio
derivation for the scope is skipped — the ratio keys are absent and no
division by zero occurs. -/
theorem flush_episode_stats (L : List ActionType)
    (coordLog : List (String × ℚ))
    (hd : ∀ p ∈ coordLog, strStartsWith p.1 "androidenv" = false) :
    episodeFlush L coordLog "androidenv_episode_steps"
        = some ((L.length : ℚ)) ∧
    (L ≠ [] → ∀ t, episodeFlush L coordLog
        (ratioKey "androidenv_episode" t)
        = some ((L.count t : ℚ) / (L.length : ℚ))) ∧
    (L ≠ [] → (actionTypeList.map (fun t =>
        (episodeFlush L coordLog
          (ratioKey "androidenv_episode" t)).getD 0)).sum = 1) ∧
    (L = [] → ∀ t, episodeFlush L coordLog (ratioKey "androidenv_episode" t)
        = none) := by
  obtain ⟨h1, h2, h3⟩ := episodeFlush_eval L coordLog hd
  refine ⟨h1, h3, ?_, h2⟩
  intro hL
  have hNne : (L.length : ℚ) ≠ 0 := by
    have : L.length ≠ 0 := fun h => hL (List.length_eq_zero.mp h)
    exact_mod_cast this
  have hsum := count_sum_rat L
  simp only [actionTypeList, List.map_cons, List.map_nil, List.sum_cons,
    List.sum_nil] at hsum ⊢
  rw [h3 hL ActionType.TOUCH, h3 hL ActionType.LIFT, h3 hL ActionType.REPEAT]
  simp only [Option.getD_some]
  field_simp
  linarith [hsum]

/-- C8, witness: three recorded steps `[TOUCH, TOUCH, LIFT]` flushed with a
non-colliding coordinator log report an episode step count of 3, a TOUCH
ratio of 2/3, and ratios summing to 1. -/
theorem flush_episode_stats_witness :
    (∀ p ∈ [(("fps" : String), (30 : ℚ))],
        strStartsWith p.1 "androidenv" = false) ∧
    episodeFlush [ActionType.TOUCH, ActionType.TOUCH, ActionType.LIFT]
        [("fps", 30)] "androidenv_episode_steps" = some 3 ∧
    episodeFlush [ActionType.TOUCH, ActionType.TOUCH, ActionType.LIFT]
        [("fps", 30)] (ratioKey "androidenv_episode" ActionType.TOUCH)
        = some (2 / 3) ∧
    (actionTypeList.map (fun t =>
        (episodeFlush [ActionType.TOUCH, ActionType.TOUCH, ActionType.LIFT]
          [("fps", 30)]
          (ratioKey "androidenv_episode" t)).getD 0)).sum = 1 := by
  obtain ⟨h1, h2, h3, -⟩ :=
    flush_episode_stats [ActionType.TOUCH, ActionType.TOUCH, ActionType.LIFT]
      [("fps", 30)] (by decide)
  refine ⟨by decide, ?_, ?_, h3 (by decide)⟩
  · simpa using h1
  · have h := h2 (by decide) ActionType.TOUCH
    rw [h]
    have hc : List.count ActionType.TOUCH
        [ActionType.TOUCH, ActionType.TOUCH, ActionType.LIFT] = 2 := by
      decide
    rw [hc]
    norm_num

end AndroidEnvModel
